import Mathlib

/-!
# Verification of the betting-predictor match-outcome engine

Shallow embedding of the prediction engine of this repository:
`betting/models.py`, `betting/predictor.py`, `betting/enhanced_predictor.py`
and `betting/enhanced_predictor_fixed.py`.

Conventions:
* Python ints become `ℕ`, Python floats become `ℚ` wherever the source only
  performs field arithmetic, and `ℝ` where the source calls `math.exp` or
  `scipy.stats.poisson.pmf`.
* Form strings become `List Char` (same character alphabet as the source).
* `Optional` values become `Option`; an absent head-to-head record is `none`.
* Each definition carries a comment naming the source function and lines
  it embeds.
-/

/-- Embeds `models.py`, `TeamStats` dataclass (lines 71-92): season counters, the
recent-form string and the two derived per-match averages (which default
to `0.0` exactly as in the dataclass). -/
structure TeamStats where
  matches_played : ℕ
  wins : ℕ
  draws : ℕ
  losses : ℕ
  goals_scored : ℕ
  goals_conceded : ℕ
  clean_sheets : ℕ
  failed_to_score : ℕ
  form : List Char
  avg_goals_scored : ℚ
  avg_goals_conceded : ℚ
deriving Repr

/-- A `TeamStats` as freshly constructed by the dataclass: the two average
fields take their default value `0.0` (`models.py` lines 85-86). -/
def mkTeamStats (mp w d l gs gc cs fts : ℕ) (form : List Char) : TeamStats :=
  ⟨mp, w, d, l, gs, gc, cs, fts, form, 0, 0⟩

/-- Embeds `models.py`, `TeamStats.calculate_averages` (lines 88-92): the averages
are written only when `matches_played > 0`; otherwise the record is left
untouched. -/
def calculateAverages (s : TeamStats) : TeamStats :=
  if 0 < s.matches_played then
    { s with
      avg_goals_scored := (s.goals_scored : ℚ) / s.matches_played
      avg_goals_conceded := (s.goals_conceded : ℚ) / s.matches_played }
  else s

/-- C7: for a freshly constructed snapshot, `calculate_averages` leaves both
averages at `0` when `matches_played = 0` (the division is guarded, so it is
never executed with a zero denominator), and otherwise sets them to goals
scored (resp. conceded) divided by matches played. -/
theorem calculateAverages_spec (mp w d l gs gc cs fts : ℕ) (form : List Char) :
    (calculateAverages (mkTeamStats mp w d l gs gc cs fts form)).avg_goals_scored
        = (if 0 < mp then (gs : ℚ) / mp else 0) ∧
      (calculateAverages (mkTeamStats mp w d l gs gc cs fts form)).avg_goals_conceded
        = (if 0 < mp then (gc : ℚ) / mp else 0) := by
  unfold calculateAverages mkTeamStats
  by_cases h : 0 < mp <;> simp [h]

/-- Embeds `enhanced_predictor.py`, loop of `calculate_form_consistency`
(lines 163-167): number of positions where the result differs from its
predecessor. -/
def countTransitions : List Char → ℕ
  | a :: b :: rest => (if a ≠ b then 1 else 0) + countTransitions (b :: rest)
  | _ => 0

/-- Embeds `enhanced_predictor.py`, `EnhancedMatchPredictor.calculate_form_consistency`
(lines 158-171): default `0.7` below three entries, otherwise
`1 - (transitions/(len-1)) * 0.5` clamped to `[0.5, 1.0]`. -/
def calculateFormConsistency (form : List Char) : ℚ :=
  if form = [] ∨ form.length < 3 then 0.7
  else
    max 0.5 (min 1.0 (1 - ((countTransitions form : ℚ) / ((form.length - 1 : ℕ) : ℚ)) * 0.5))

/-- Embeds `enhanced_predictor_fixed.py`, `EnhancedMatchPredictor._calculate_form_consistency`
(lines 24-36): default `0.5` below three entries, otherwise
`0.5 + 0.5 * (1 - max(wins, draws, losses) / (wins + draws + losses))`,
with counts taken on the upper-cased string. -/
def formConsistencyFixed (form : List Char) : ℚ :=
  if form = [] ∨ form.length < 3 then 0.5
  else
    let up := form.map Char.toUpper
    let wins := up.count 'W'
    let draws := up.count 'D'
    let losses := up.count 'L'
    let consistency : ℚ :=
      1 - ((max wins (max draws losses) : ℚ) / ((wins + draws + losses : ℕ) : ℚ))
    0.5 + consistency * 0.5

/-- A form entry of the W/D/L alphabet (spec §7: anything else is
structurally invalid input). -/
def ValidResult (c : Char) : Prop := c = 'W' ∨ c = 'D' ∨ c = 'L'

instance : DecidablePred ValidResult := fun c => by unfold ValidResult; infer_instance

theorem count_wdl_eq_length (form : List Char) (h : ∀ c ∈ form, ValidResult c) :
    (form.map Char.toUpper).count 'W' + (form.map Char.toUpper).count 'D'
      + (form.map Char.toUpper).count 'L' = form.length := by
  induction form with
  | nil => simp
  | cons a tl ih =>
    have ha : ValidResult a := h a (List.mem_cons_self a tl)
    have htl := ih fun c hc => h c (List.mem_cons_of_mem a hc)
    rcases ha with h' | h' | h' <;> subst h' <;>
      simp [List.count_cons] <;> omega

/-- C8: on any W/D/L form sequence both form-consistency functions return a
value in `[0.5, 1.0]`, and on sequences shorter than 3 entries each returns
its fixed default (`0.7` in `enhanced_predictor.py`, `0.5` in
`enhanced_predictor_fixed.py`). -/
theorem formConsistency_spec (form : List Char) (h : ∀ c ∈ form, ValidResult c) :
    (0.5 ≤ calculateFormConsistency form ∧ calculateFormConsistency form ≤ 1) ∧
      (0.5 ≤ formConsistencyFixed form ∧ formConsistencyFixed form ≤ 1) ∧
      (form.length < 3 →
        calculateFormConsistency form = 0.7 ∧ formConsistencyFixed form = 0.5) := by
  by_cases hshort : form = [] ∨ form.length < 3
  · constructor
    · unfold calculateFormConsistency
      rw [if_pos hshort]
      norm_num
    · constructor
      · unfold formConsistencyFixed
        rw [if_pos hshort]
        norm_num
      · intro _
        unfold calculateFormConsistency formConsistencyFixed
        rw [if_pos hshort, if_pos hshort]
        exact ⟨rfl, rfl⟩
  · have hlen : 3 ≤ form.length := by
      push_neg at hshort
      omega
    refine ⟨?_, ?_, ?_⟩
    · unfold calculateFormConsistency
      rw [if_neg hshort]
      refine ⟨le_max_left _ _, max_le (by norm_num) (le_trans (min_le_left _ _) (by norm_num))⟩
    · unfold formConsistencyFixed
      rw [if_neg hshort]
      simp only []
      set W := (form.map Char.toUpper).count 'W' with hW
      set D := (form.map Char.toUpper).count 'D' with hD
      set L := (form.map Char.toUpper).count 'L' with hL
      have hsum : W + D + L = form.length := count_wdl_eq_length form h
      have hMle : max W (max D L) ≤ W + D + L := by
        rw [Nat.max_le, Nat.max_le]
        omega
      have hleM : W + D + L ≤ 3 * max W (max D L) := by
        have h1 : W ≤ max W (max D L) := Nat.le_max_left _ _
        have h2 : D ≤ max W (max D L) :=
          le_trans (Nat.le_max_left D L) (Nat.le_max_right _ _)
        have h3 : L ≤ max W (max D L) :=
          le_trans (Nat.le_max_right D L) (Nat.le_max_right _ _)
        omega
      have hnpos : (0 : ℚ) < ((W + D + L : ℕ) : ℚ) := by
        have : 0 < W + D + L := by omega
        exact_mod_cast this
      set q : ℚ := ((max W (max D L) : ℕ) : ℚ) / ((W + D + L : ℕ) : ℚ) with hq
      have hq1 : q ≤ 1 := by
        rw [hq, div_le_one hnpos]
        exact_mod_cast hMle
      have hq2 : 1 / 3 ≤ q := by
        rw [hq, le_div_iff hnpos]
        have : ((W + D + L : ℕ) : ℚ) ≤ 3 * ((max W (max D L) : ℕ) : ℚ) := by
          exact_mod_cast hleM
        linarith
      constructor
      · push_cast
        push_cast at hq
        rw [← hq]
        linarith
      · push_cast
        push_cast at hq
        rw [← hq]
        linarith
    · intro hcontr
      omega

theorem formConsistency_spec_witness :
    (∀ c ∈ (['W', 'D', 'L', 'W'] : List Char), ValidResult c) ∧
      ((0.5 ≤ calculateFormConsistency ['W', 'D', 'L', 'W'] ∧
          calculateFormConsistency ['W', 'D', 'L', 'W'] ≤ 1) ∧
        (0.5 ≤ formConsistencyFixed ['W', 'D', 'L', 'W'] ∧
          formConsistencyFixed ['W', 'D', 'L', 'W'] ≤ 1) ∧
        ((['W', 'D', 'L', 'W'] : List Char).length < 3 →
          calculateFormConsistency ['W', 'D', 'L', 'W'] = 0.7 ∧
            formConsistencyFixed ['W', 'D', 'L', 'W'] = 0.5)) :=
  ⟨by decide, formConsistency_spec ['W', 'D', 'L', 'W'] (by decide)⟩

/-- Sample-size confidence factor, first cascade of `predictor.py`
`predict_score` (lines 267-274) and identically of `enhanced_predictor.py`
`predict_score` (lines 395-402). -/
def sampleFactor (hmp amp : ℕ) : ℚ :=
  if 15 ≤ hmp ∧ 15 ≤ amp then 1.0
  else if 10 ≤ hmp ∧ 10 ≤ amp then 0.9
  else if 5 ≤ hmp ∧ 5 ≤ amp then 0.7
  else 0.5

/-- Head-to-head confidence factor, second cascade of `predictor.py`
`predict_score` (lines 277-284) and of `enhanced_predictor.py`
`predict_score` (lines 405-412); `none` is a missing record. -/
def h2hFactor (total : Option ℕ) : ℚ :=
  match total with
  | none => 0.6
  | some t => if 5 ≤ t then 1.0 else if 3 ≤ t then 0.85 else if 1 ≤ t then 0.7 else 0.6

/-- Confidence blend of `predictor.py` `predict_score` (lines 263-295) and
`enhanced_predictor.py` `predict_score` (lines 391-423): the form-consistency
factor joins the factor list only when both form strings are non-empty, and
the zipped weighted sum is divided by the sum of the full weight vector
`[0.4, 0.3, 0.3]`. -/
def predictScoreConfidence (home away : TeamStats) (h2hTotal : Option ℕ) : ℚ :=
  let factors : List ℚ :=
    [sampleFactor home.matches_played away.matches_played, h2hFactor h2hTotal] ++
      (if home.form ≠ [] ∧ away.form ≠ [] then
        [(calculateFormConsistency home.form + calculateFormConsistency away.form) / 2]
      else [])
  let weights : List ℚ := [0.4, 0.3, 0.3]
  (List.zipWith (fun f w => f * w) factors weights).sum / weights.sum

theorem sampleFactor_le_one (hmp amp : ℕ) : sampleFactor hmp amp ≤ 1 := by
  unfold sampleFactor
  split_ifs <;> norm_num

theorem h2hFactor_le_one (total : Option ℕ) : h2hFactor total ≤ 1 := by
  cases total with
  | none => norm_num [h2hFactor]
  | some t =>
    simp only [h2hFactor]
    split_ifs <;> norm_num

/-- C10: with at least one empty form sequence the score predictor's
confidence is the degenerate blend `0.4 * sample + 0.3 * h2h` over the full
weight sum `1`, hence at most `0.7`. -/
theorem confidence_le_of_empty_form (home away : TeamStats) (h2hTotal : Option ℕ)
    (h : home.form = [] ∨ away.form = []) :
    predictScoreConfidence home away h2hTotal ≤ 0.7 := by
  unfold predictScoreConfidence
  have hcond : ¬(home.form ≠ [] ∧ away.form ≠ []) := by
    rcases h with h | h <;> simp [h]
  rw [if_neg hcond]
  have h1 := sampleFactor_le_one home.matches_played away.matches_played
  have h2 := h2hFactor_le_one h2hTotal
  have h1' : (0 : ℚ) ≤ 1 - sampleFactor home.matches_played away.matches_played := by
    linarith
  simp only [List.append_nil, List.zipWith, List.sum_cons, List.sum_nil]
  norm_num
  linarith

theorem confidence_le_of_empty_form_witness :
    ((mkTeamStats 20 10 5 5 30 20 8 2 []).form = [] ∨
        (mkTeamStats 20 10 5 5 30 20 8 2 []).form = []) ∧
      predictScoreConfidence (mkTeamStats 20 10 5 5 30 20 8 2 [])
          (mkTeamStats 20 10 5 5 30 20 8 2 []) (some 6) ≤ 0.7 :=
  ⟨Or.inl rfl,
    confidence_le_of_empty_form (mkTeamStats 20 10 5 5 30 20 8 2 [])
      (mkTeamStats 20 10 5 5 30 20 8 2 []) (some 6) (Or.inl rfl)⟩

/-- Embeds `predictor.py` `predict_score` line 225 (identical in
`enhanced_predictor.py` line 350): `min(0.4, 0.1 * min(total_matches, 4))`. -/
def h2hBlendWeight (total : ℕ) : ℚ := min 0.4 (0.1 * min (total : ℚ) 4)

/-- Head-to-head record as read by `predictor.py` `predict_score`
(lines 219-227) and `predict_match_outcome`: per-team wins/draws and goal
totals from the team-1 perspective. -/
structure H2HLegacy where
  total_matches : ℕ
  team1_wins : ℕ
  team2_wins : ℕ
  draws : ℕ
  team1_goals : ℕ
  team2_goals : ℕ
deriving Repr

/-- Embeds `predictor.py`, `predict_score` lines 218-227: when a record with
`total_matches > 0` is present, each rate is blended with the record's
per-match goal average using `h2hBlendWeight`. -/
def applyH2HLegacy (rates : ℚ × ℚ) (h2h : Option H2HLegacy) : ℚ × ℚ :=
  match h2h with
  | none => rates
  | some st =>
    if 0 < st.total_matches then
      let h2hHomeAvg : ℚ := (st.team1_goals : ℚ) / st.total_matches
      let h2hAwayAvg : ℚ := (st.team2_goals : ℚ) / st.total_matches
      let w := h2hBlendWeight st.total_matches
      (rates.1 * (1 - w) + h2hHomeAvg * w, rates.2 * (1 - w) + h2hAwayAvg * w)
    else rates

/-- C3 (amended): in `predictor.py`/`enhanced_predictor.py`, a supplied record
with at least one meeting blends each rate as
`(1-w)*base + w*h2h_rate` with `w = min(0.4, 0.1*min(total, 4))`, and this
weight never exceeds `0.4` and is non-decreasing in `total_matches`.
(`enhanced_predictor_fixed.py` deviates; see the counterexample.) -/
theorem h2h_blend_spec (rates : ℚ × ℚ) (st st' : H2HLegacy)
    (h1 : 1 ≤ st.total_matches) (h2 : st.total_matches ≤ st'.total_matches) :
    applyH2HLegacy rates (some st) =
        ((1 - h2hBlendWeight st.total_matches) * rates.1 +
            h2hBlendWeight st.total_matches * ((st.team1_goals : ℚ) / st.total_matches),
          (1 - h2hBlendWeight st.total_matches) * rates.2 +
            h2hBlendWeight st.total_matches * ((st.team2_goals : ℚ) / st.total_matches)) ∧
      h2hBlendWeight st.total_matches ≤ 0.4 ∧
      h2hBlendWeight st.total_matches ≤ h2hBlendWeight st'.total_matches := by
  refine ⟨?_, min_le_left _ _, ?_⟩
  · have hpos : 0 < st.total_matches := h1
    simp only [applyH2HLegacy, if_pos hpos, Prod.mk.injEq]
    constructor <;> ring
  · have hc : (st.total_matches : ℚ) ≤ (st'.total_matches : ℚ) := by exact_mod_cast h2
    unfold h2hBlendWeight
    have : min (st.total_matches : ℚ) 4 ≤ min (st'.total_matches : ℚ) 4 :=
      min_le_min hc le_rfl
    refine min_le_min le_rfl ?_
    nlinarith

theorem h2h_blend_spec_witness :
    1 ≤ (H2HLegacy.mk 2 1 0 1 3 1).total_matches ∧
      (H2HLegacy.mk 2 1 0 1 3 1).total_matches ≤ (H2HLegacy.mk 5 2 1 2 7 4).total_matches ∧
      (applyH2HLegacy (1, 1) (some (H2HLegacy.mk 2 1 0 1 3 1)) =
          ((1 - h2hBlendWeight 2) * 1 + h2hBlendWeight 2 * ((3 : ℚ) / 2),
            (1 - h2hBlendWeight 2) * 1 + h2hBlendWeight 2 * ((1 : ℚ) / 2)) ∧
        h2hBlendWeight 2 ≤ 0.4 ∧ h2hBlendWeight 2 ≤ h2hBlendWeight 5) :=
  ⟨by norm_num, by norm_num,
    h2h_blend_spec (1, 1) (H2HLegacy.mk 2 1 0 1 3 1) (H2HLegacy.mk 5 2 1 2 7 4)
      (by norm_num) (by norm_num)⟩

/-- Head-to-head record as built and read by `enhanced_predictor_fixed.py`
(`models.py` `HeadToHeadStats` fields the file uses). -/
structure H2HFixed where
  total_matches : ℕ
  home_wins : ℕ
  away_wins : ℕ
  draws : ℕ
  goals_for : ℕ
  goals_against : ℕ
deriving Repr

/-- Embeds `enhanced_predictor_fixed.py`, `calculate_expected_goals` lines 198-219:
per-match rates from raw counters over `max(1, matches_played)`, attack and
defense strengths against a flat league average of 1.5, and the additive
home advantage of `0.3`. -/
def fixedBaseRates (home away : TeamStats) : ℚ × ℚ :=
  let hg := (home.goals_scored : ℚ) / ((max 1 home.matches_played : ℕ) : ℚ)
  let ag := (away.goals_scored : ℚ) / ((max 1 away.matches_played : ℕ) : ℚ)
  let hcg := (home.goals_conceded : ℚ) / ((max 1 home.matches_played : ℕ) : ℚ)
  let acg := (away.goals_conceded : ℚ) / ((max 1 away.matches_played : ℕ) : ℚ)
  let leagueAvg : ℚ := 1.5
  let homeAttack := hg / leagueAvg
  let awayAttack := ag / leagueAvg
  let homeDefense := hcg / leagueAvg
  let awayDefense := acg / leagueAvg
  (homeAttack * awayDefense * leagueAvg + 0.3, awayAttack * homeDefense * leagueAvg)

/-- Embeds `enhanced_predictor_fixed.py`, `calculate_expected_goals` lines 221-231:
the head-to-head blend with `w = min(0.2, 5 / total_matches)` and per-meeting
goal averages over `max(1, home_wins + draws + away_wins)`. -/
def fixedH2HBlend (rates : ℚ × ℚ) (h2h : H2HFixed) : ℚ × ℚ :=
  if 0 < h2h.total_matches then
    let w : ℚ := min 0.2 (5 / (h2h.total_matches : ℚ))
    let denom : ℕ := max 1 (h2h.home_wins + h2h.draws + h2h.away_wins)
    let h2hHome : ℚ := (h2h.goals_for : ℚ) / (denom : ℚ)
    let h2hAway : ℚ := (h2h.goals_against : ℚ) / (denom : ℚ)
    ((1 - w) * rates.1 + w * h2hHome, (1 - w) * rates.2 + w * h2hAway)
  else rates

/-- Embeds `enhanced_predictor_fixed.py`, `calculate_expected_goals` lines 233-266:
the three confidence factors and their weighted blend. -/
def fixedConfidence (home away : TeamStats) (h2h : H2HFixed) : ℚ :=
  let matchesFactor : ℚ :=
    min 1.0 (((home.matches_played + away.matches_played : ℕ) : ℚ) / (2 * 5))
  let h2hF : ℚ := min 1.0 ((h2h.total_matches : ℚ) / 5)
  let avgFC : ℚ := (formConsistencyFixed home.form + formConsistencyFixed away.form) / 2
  (List.zipWith (fun f w => f * w) [matchesFactor, h2hF, avgFC] [0.4, 0.3, 0.3]).sum /
    ([0.4, 0.3, 0.3] : List ℚ).sum

/-- Embeds `enhanced_predictor_fixed.py`, `EnhancedMatchPredictor.calculate_expected_goals`
(lines 194-268): expected-goal pair plus confidence. -/
def calculateExpectedGoalsFixed (home away : TeamStats) (h2h : H2HFixed) : ℚ × ℚ × ℚ :=
  let rates := fixedH2HBlend (fixedBaseRates home away) h2h
  (rates.1, rates.2, fixedConfidence home away h2h)

/-- C3 counterexample: in `enhanced_predictor_fixed.py` a one-meeting record
gives blend weight `min(0.2, 5/1) = 0.2`, not `min(0.4, 0.1*1) = 0.1`: with a
base home rate of `6.3` and a head-to-head rate of `5` the code produces
`6.04` where the claimed formula gives `6.17`. -/
theorem h2h_blend_fixed_counterexample :
    (fixedBaseRates (mkTeamStats 1 1 0 0 3 1 0 0 []) (mkTeamStats 1 0 0 1 1 3 0 0 [])).1
        = 63 / 10 ∧
      (calculateExpectedGoalsFixed (mkTeamStats 1 1 0 0 3 1 0 0 [])
          (mkTeamStats 1 0 0 1 1 3 0 0 []) (H2HFixed.mk 1 1 0 0 5 0)).1 = 151 / 25 ∧
      (1 - h2hBlendWeight 1) * (63 / 10) + h2hBlendWeight 1 * ((5 : ℚ) / 1) = 617 / 100 ∧
      (151 / 25 : ℚ) ≠ 617 / 100 := by
  refine ⟨?_, ?_, ?_, by norm_num⟩
  · norm_num [fixedBaseRates, mkTeamStats]
  · norm_num [calculateExpectedGoalsFixed, fixedBaseRates, fixedH2HBlend, mkTeamStats]
  · norm_num [h2hBlendWeight]

/-- Embeds `enhanced_predictor_fixed.py`, `EnhancedMatchPredictor._poisson_pmf`
(lines 18-22): returns `0.0` whenever `mu == 0`, otherwise
`exp(-mu) * mu^k / factorial(k if k < 20 else 19)`. -/
noncomputable def poissonPmfFixed (k : ℕ) (μ : ℚ) : ℝ :=
  if μ = 0 then 0
  else Real.exp (-(μ : ℝ)) * (μ : ℝ) ^ k / ((Nat.factorial (if k < 20 then k else 19) : ℕ) : ℝ)

/-- C2: the engine's own Poisson mass `_poisson_pmf` returns `0` for every
`k` at rate `mu = 0` — in particular `p(0; 0) = 0`, not `1` as the Poisson
distribution (and the spec) require. -/
theorem poissonPmfFixed_zero_rate :
    poissonPmfFixed 0 0 = 0 ∧ ∀ k : ℕ, poissonPmfFixed k 0 = 0 := by
  refine ⟨?_, fun k => ?_⟩ <;> simp [poissonPmfFixed]

/-- Embeds `predictor.py` `predict_score` lines 233-236 (identical in
`enhanced_predictor.py` lines 354-358): a team whose clean-sheet rate over
`max(1, matches_played)` exceeds `0.4` dampens the opponent's rate by `0.9`. -/
def csDampFactor (ts : TeamStats) : ℚ :=
  if 0.4 < (ts.clean_sheets : ℚ) / ((max 1 ts.matches_played : ℕ) : ℚ) then 0.9 else 1

/-- Embeds `predictor.py` `predict_score` lines 239-243 (identical in
`enhanced_predictor.py` lines 360-365): a team's own rate is multiplied by
`max(0.8, 1 - failed_to_score / max(1, matches_played))`. -/
def scoringFactor (ts : TeamStats) : ℚ :=
  max 0.8 (1 - (ts.failed_to_score : ℚ) / ((max 1 ts.matches_played : ℕ) : ℚ))

/-- Embeds `predictor.py`, `predict_score` lines 202-207: base expected goals from
the stored averages, with the `1.1`/`0.9` home-advantage multipliers. -/
def predictorBaseRates (home away : TeamStats) : ℚ × ℚ :=
  (((home.avg_goals_scored + away.avg_goals_conceded) / 2) * 1.1,
    ((away.avg_goals_scored + home.avg_goals_conceded) / 2) * 0.9)

/-- Embeds `predictor.py`, `MatchPredictor.predict_score` (lines 199-300), modelled
as a fallible computation: the branches that call the module-level names
`calculate_form_factor` (lines 210-216, reached when a form string has at
least 5 entries) and `calculate_form_consistency` (lines 287-291, reached
when both form strings are non-empty) yield `none`, because neither name is
defined or imported anywhere in `predictor.py`, so reaching them raises
`NameError`. The remaining paths return the two expected-goal rates and the
confidence. -/
def predictorPredictScoreOpt (home away : TeamStats) (h2h : Option H2HLegacy) :
    Option (ℚ × ℚ × ℚ) :=
  if 5 ≤ home.form.length ∨ 5 ≤ away.form.length then none
  else
    let blended := applyH2HLegacy (predictorBaseRates home away) h2h
    let rates := (blended.1 * csDampFactor away * scoringFactor home,
      blended.2 * csDampFactor home * scoringFactor away)
    if home.form ≠ [] ∧ away.form ≠ [] then none
    else some (rates.1, rates.2,
      predictScoreConfidence home away (h2h.map H2HLegacy.total_matches))

/-- C6 (code bug): with `matches_played = 0` on both sides and a valid
five-entry W/D/L form, `predictor.py`'s `predict_score` does not return a
low confidence — it raises `NameError` on the undefined module-level name
`calculate_form_factor` (modelled as `none`). The confidence formula itself
(shared verbatim with `enhanced_predictor.py`, which calls the methods via
`self` and does not raise) does give a strictly lower confidence for
`matches_played = 0` than for `matches_played = 15`, all else equal. -/
theorem predict_score_zero_matches_bug :
    predictorPredictScoreOpt (mkTeamStats 0 0 0 0 0 0 0 0 ['W', 'W', 'W', 'W', 'W'])
        (mkTeamStats 0 0 0 0 0 0 0 0 ['W', 'W', 'W', 'W', 'W']) none = none ∧
      predictScoreConfidence (mkTeamStats 0 0 0 0 0 0 0 0 ['W', 'W', 'W', 'W', 'W'])
          (mkTeamStats 0 0 0 0 0 0 0 0 ['W', 'W', 'W', 'W', 'W']) none <
        predictScoreConfidence (mkTeamStats 15 9 3 3 20 10 5 2 ['W', 'W', 'W', 'W', 'W'])
          (mkTeamStats 15 9 3 3 20 10 5 2 ['W', 'W', 'W', 'W', 'W']) none := by
  constructor
  · rfl
  · norm_num [predictScoreConfidence, sampleFactor, h2hFactor, calculateFormConsistency,
      countTransitions, mkTeamStats]

/-- Embeds `predictor.py`, `predict_over_under` lines 142-146: the full-match
expected goals of each side. The same base expression
`(avg_scored + opponent_avg_conceded) / 2` opens `predict_score` (line 202). -/
def overUnderExpected (home away : TeamStats) : ℚ × ℚ :=
  ((home.avg_goals_scored + away.avg_goals_conceded) / 2,
    (away.avg_goals_scored + home.avg_goals_conceded) / 2)

/-- Embeds `predictor.py`, `predict_first_half` lines 178-180: expected goals
"for first half (approximately 45% of full match)" per its own comment. -/
def firstHalfExpected (home away : TeamStats) : ℚ × ℚ :=
  ((home.avg_goals_scored + away.avg_goals_conceded) * 0.45,
    (away.avg_goals_scored + home.avg_goals_conceded) * 0.45)

/-- C9 (code bug): the first-half rates are `0.45 * (avg_s + avg_c)`, which
is `0.9` times the engine's own full-match expected-goal rate
`(avg_s + avg_c) / 2` — not the documented `~0.45` fraction of it. At the
failing input (both averages 1) the full-match home rate is `1`, the
first-half home rate is `0.9`, and `0.9 ≠ 0.45 * 1`. -/
theorem firstHalf_scaling_bug :
    (∀ home away : TeamStats,
        (firstHalfExpected home away).1 = 0.9 * (overUnderExpected home away).1 ∧
          (firstHalfExpected home away).2 = 0.9 * (overUnderExpected home away).2) ∧
      (firstHalfExpected (calculateAverages (mkTeamStats 1 1 0 0 1 1 0 0 []))
          (calculateAverages (mkTeamStats 1 1 0 0 1 1 0 0 []))).1 = 9 / 10 ∧
      (overUnderExpected (calculateAverages (mkTeamStats 1 1 0 0 1 1 0 0 []))
          (calculateAverages (mkTeamStats 1 1 0 0 1 1 0 0 []))).1 = 1 ∧
      (firstHalfExpected (calculateAverages (mkTeamStats 1 1 0 0 1 1 0 0 []))
            (calculateAverages (mkTeamStats 1 1 0 0 1 1 0 0 []))).1 ≠
        0.45 * (overUnderExpected (calculateAverages (mkTeamStats 1 1 0 0 1 1 0 0 []))
            (calculateAverages (mkTeamStats 1 1 0 0 1 1 0 0 []))).1 := by
  refine ⟨fun home away => ⟨by unfold firstHalfExpected overUnderExpected; ring, 
    by unfold firstHalfExpected overUnderExpected; ring⟩, ?_, ?_, ?_⟩ <;>
    norm_num [firstHalfExpected, overUnderExpected, calculateAverages, mkTeamStats]

/-- Embeds `enhanced_predictor.py`, `calculate_form_factor` loop body (lines 145-154):
the per-result contribution multiplying the recency weight. -/
def resultBoost (c : Char) : ℚ :=
  if c = 'W' then 1.2 else if c = 'D' then 1.0 else if c = 'L' then 0.8 else 0

/-- Embeds `enhanced_predictor.py`, `EnhancedMatchPredictor.calculate_form_factor`
(lines 136-156): recency weights `exp(-0.2*i)` over the reversed string;
an empty string, or a zero accumulated weight, returns `1.0`. -/
noncomputable def calculateFormFactor (form : List Char) : ℝ :=
  if form = [] then 1
  else
    let rev := form.reverse
    let totalWeight : ℝ := ∑ i ∈ Finset.range rev.length, Real.exp (-(0.2 : ℝ) * i)
    let formValue : ℝ :=
      ∑ i ∈ Finset.range rev.length, (resultBoost (rev.getD i ' ') : ℝ) * Real.exp (-(0.2 : ℝ) * i)
    if 0 < totalWeight then formValue / totalWeight else 1

theorem resultBoost_nonneg (c : Char) : 0 ≤ resultBoost c := by
  unfold resultBoost
  split_ifs <;> norm_num

theorem resultBoost_pos_of_valid (c : Char) (h : ValidResult c) : 0 < resultBoost c := by
  unfold resultBoost
  rcases h with h | h | h <;> subst h
  · rw [if_pos rfl]; norm_num
  · rw [if_neg (by decide), if_pos rfl]; norm_num
  · rw [if_neg (by decide), if_neg (by decide), if_pos rfl]; norm_num

theorem calculateFormFactor_nonneg (form : List Char) : 0 ≤ calculateFormFactor form := by
  simp only [calculateFormFactor]
  split_ifs with h1 h2
  · norm_num
  · refine div_nonneg (Finset.sum_nonneg fun i _ => ?_) (le_of_lt h2)
    exact mul_nonneg (by exact_mod_cast resultBoost_nonneg _) (Real.exp_pos _).le
  · norm_num

theorem calculateFormFactor_pos (form : List Char) (h : ∀ c ∈ form, ValidResult c) :
    0 < calculateFormFactor form := by
  simp only [calculateFormFactor]
  split_ifs with h1 h2
  · norm_num
  · refine div_pos (Finset.sum_pos (fun i hi => ?_) ?_) h2
    · rw [Finset.mem_range] at hi
      have hmem : form.reverse.getD i ' ' ∈ form := by
        rw [List.getD_eq_getElem form.reverse ' ' (by simpa using hi)]
        exact List.mem_reverse.mp (List.getElem_mem _)
      exact mul_pos (by exact_mod_cast resultBoost_pos_of_valid _ (h _ hmem)) (Real.exp_pos _)
    · rw [Finset.nonempty_range_iff]
      simpa using h1
  · norm_num

/-- Embeds `enhanced_predictor.py`, `predict_score` lines 296-303: attack and
defense strengths against the league-average constants of lines 173-190
(each guarded by `max(0.5, ·)`), multiplied back by the venue average. -/
def enhancedBaseRates (home away : TeamStats) : ℚ × ℚ :=
  let homeAttack := home.avg_goals_scored / max 0.5 1.5
  let awayDefense := away.avg_goals_conceded / max 0.5 1.5
  let awayAttack := away.avg_goals_scored / max 0.5 1.2
  let homeDefense := home.avg_goals_conceded / max 0.5 1.2
  (homeAttack * awayDefense * 1.5, awayAttack * homeDefense * 1.2)

/-- Embeds `enhanced_predictor.py`, `predict_score` lines 305-312: the form factor
multiplies a rate only when the form string has at least five entries, and is
computed on the last five entries. -/
noncomputable def applyEnhancedForm (r : ℝ) (form : List Char) : ℝ :=
  if form ≠ [] ∧ 5 ≤ form.length then
    r * calculateFormFactor (form.drop (form.length - 5))
  else r

/-- Recency-weighted head-to-head summary consumed by `enhanced_predictor.py`
`predict_score`: `homeAvg`/`awayAvg` are the exponentially decayed
per-meeting goal averages computed in lines 319-347 over the resolvable
meetings, and `total` is the record's `total_matches`. `none` stands for a
missing record or one with no resolvable meeting (`h2h_weights_sum = 0`). -/
structure H2HSummary where
  homeAvg : ℚ
  awayAvg : ℚ
  total : ℕ
deriving Repr

/-- Embeds `enhanced_predictor.py`, `predict_score` lines 319, 345-352: the blend of
the current rates with the recency-weighted head-to-head averages. -/
noncomputable def applyEnhancedH2H (rates : ℝ × ℝ) (h2h : Option H2HSummary) : ℝ × ℝ :=
  match h2h with
  | none => rates
  | some s =>
    if 0 < s.total then
      let w : ℝ := ((h2hBlendWeight s.total : ℚ) : ℝ)
      (rates.1 * (1 - w) + (s.homeAvg : ℝ) * w, rates.2 * (1 - w) + (s.awayAvg : ℝ) * w)
    else rates

/-- Embeds `enhanced_predictor.py`, `EnhancedMatchPredictor.predict_score`
(lines 286-365), expected-goal part: base strengths, form factor, the
`1.2`/`0.85` home-advantage multipliers (lines 314-316), the head-to-head
blend, and the clean-sheet and scoring-consistency dampers. -/
noncomputable def enhancedRates (home away : TeamStats) (h2h : Option H2HSummary) : ℝ × ℝ :=
  let base := enhancedBaseRates home away
  let formed := (applyEnhancedForm ((base.1 : ℚ) : ℝ) home.form,
    applyEnhancedForm ((base.2 : ℚ) : ℝ) away.form)
  let adv := (formed.1 * 1.2, formed.2 * 0.85)
  let blended := applyEnhancedH2H adv h2h
  (blended.1 * ((csDampFactor away : ℚ) : ℝ) * ((scoringFactor home : ℚ) : ℝ),
    blended.2 * ((csDampFactor home : ℚ) : ℝ) * ((scoringFactor away : ℚ) : ℝ))

theorem h2hBlendWeight_nonneg (total : ℕ) : 0 ≤ h2hBlendWeight total := by
  unfold h2hBlendWeight
  refine le_min (by norm_num) (mul_nonneg (by norm_num) (le_min ?_ (by norm_num)))
  exact_mod_cast Nat.zero_le total

theorem applyEnhancedForm_mono {r r' : ℝ} (form : List Char) (h : r ≤ r') :
    applyEnhancedForm r form ≤ applyEnhancedForm r' form := by
  unfold applyEnhancedForm
  split_ifs with hc
  · exact mul_le_mul_of_nonneg_right h (calculateFormFactor_nonneg _)
  · exact h

theorem applyEnhancedH2H_fst_mono {a a' : ℝ} (b : ℝ) (h2h : Option H2HSummary) (h : a ≤ a') :
    (applyEnhancedH2H (a, b) h2h).1 ≤ (applyEnhancedH2H (a', b) h2h).1 := by
  cases h2h with
  | none => exact h
  | some s =>
    simp only [applyEnhancedH2H]
    split_ifs with hc
    · have hw : (0 : ℝ) ≤ 1 - ((h2hBlendWeight s.total : ℚ) : ℝ) := by
        have h1 : h2hBlendWeight s.total ≤ 0.4 := min_le_left _ _
        have h2 : ((h2hBlendWeight s.total : ℚ) : ℝ) ≤ ((0.4 : ℚ) : ℝ) := by
          exact_mod_cast h1
        norm_num at h2
        linarith
      simp only []
      have := mul_le_mul_of_nonneg_right h hw
      linarith
    · exact h

theorem applyEnhancedH2H_snd_mono (a : ℝ) {b b' : ℝ} (h2h : Option H2HSummary) (h : b ≤ b') :
    (applyEnhancedH2H (a, b) h2h).2 ≤ (applyEnhancedH2H (a, b') h2h).2 := by
  cases h2h with
  | none => exact h
  | some s =>
    simp only [applyEnhancedH2H]
    split_ifs with hc
    · have hw : (0 : ℝ) ≤ 1 - ((h2hBlendWeight s.total : ℚ) : ℝ) := by
        have h1 : h2hBlendWeight s.total ≤ 0.4 := min_le_left _ _
        have h2 : ((h2hBlendWeight s.total : ℚ) : ℝ) ≤ ((0.4 : ℚ) : ℝ) := by
          exact_mod_cast h1
        norm_num at h2
        linarith
      simp only []
      have := mul_le_mul_of_nonneg_right h hw
      linarith
    · exact h

theorem csDampFactor_pos (ts : TeamStats) : 0 < csDampFactor ts := by
  unfold csDampFactor
  split_ifs <;> norm_num

theorem scoringFactor_pos (ts : TeamStats) : 0 < scoringFactor ts :=
  lt_of_lt_of_le (by norm_num) (le_max_left _ _)

/-- C5: in `enhanced_predictor.py` `predict_score`, raising a team's
`avg_goals_scored` (all other inputs fixed, opponent conceding averages
non-negative) never decreases that team's expected-goal rate. -/
theorem enhancedRates_mono_in_avg_scored (home away : TeamStats) (h2h : Option H2HSummary)
    (s s' : ℚ) (hss : s ≤ s') (hac : 0 ≤ away.avg_goals_conceded)
    (hhc : 0 ≤ home.avg_goals_conceded) :
    (enhancedRates { home with avg_goals_scored := s } away h2h).1 ≤
        (enhancedRates { home with avg_goals_scored := s' } away h2h).1 ∧
      (enhancedRates home { away with avg_goals_scored := s } h2h).2 ≤
        (enhancedRates home { away with avg_goals_scored := s' } h2h).2 := by
  constructor
  · have hb : (enhancedBaseRates { home with avg_goals_scored := s } away).1 ≤
        (enhancedBaseRates { home with avg_goals_scored := s' } away).1 := by
      simp only [enhancedBaseRates]
      have hk : (0 : ℚ) ≤ away.avg_goals_conceded / max 0.5 1.5 :=
        div_nonneg hac (by norm_num)
      have h1 : s / max (0.5 : ℚ) 1.5 ≤ s' / max 0.5 1.5 :=
        (div_le_div_right (by norm_num)).mpr hss
      exact mul_le_mul_of_nonneg_right (mul_le_mul_of_nonneg_right h1 hk) (by norm_num)
    have ebase2 : (enhancedBaseRates { home with avg_goals_scored := s } away).2
        = (enhancedBaseRates { home with avg_goals_scored := s' } away).2 := rfl
    have esf : scoringFactor { home with avg_goals_scored := s } = scoringFactor home := rfl
    have esf' : scoringFactor { home with avg_goals_scored := s' } = scoringFactor home := rfl
    have eform : ({ home with avg_goals_scored := s } : TeamStats).form = home.form := rfl
    have eform' : ({ home with avg_goals_scored := s' } : TeamStats).form = home.form := rfl
    simp only [enhancedRates, ebase2, esf, esf', eform, eform']
    refine mul_le_mul_of_nonneg_right (mul_le_mul_of_nonneg_right
      (applyEnhancedH2H_fst_mono _ h2h (mul_le_mul_of_nonneg_right
        (applyEnhancedForm_mono home.form (by exact_mod_cast hb)) (by norm_num)))
      (by exact_mod_cast (csDampFactor_pos away).le))
      (by exact_mod_cast (scoringFactor_pos home).le)
  · have hb : (enhancedBaseRates home { away with avg_goals_scored := s }).2 ≤
        (enhancedBaseRates home { away with avg_goals_scored := s' }).2 := by
      simp only [enhancedBaseRates]
      have hk : (0 : ℚ) ≤ home.avg_goals_conceded / max 0.5 1.2 :=
        div_nonneg hhc (by norm_num)
      have h1 : s / max (0.5 : ℚ) 1.2 ≤ s' / max 0.5 1.2 :=
        (div_le_div_right (by norm_num)).mpr hss
      exact mul_le_mul_of_nonneg_right (mul_le_mul_of_nonneg_right h1 hk) (by norm_num)
    have ebase1 : (enhancedBaseRates home { away with avg_goals_scored := s }).1
        = (enhancedBaseRates home { away with avg_goals_scored := s' }).1 := rfl
    have esf : scoringFactor { away with avg_goals_scored := s } = scoringFactor away := rfl
    have esf' : scoringFactor { away with avg_goals_scored := s' } = scoringFactor away := rfl
    have ecd : csDampFactor { away with avg_goals_scored := s } = csDampFactor away := rfl
    have ecd' : csDampFactor { away with avg_goals_scored := s' } = csDampFactor away := rfl
    have eform : ({ away with avg_goals_scored := s } : TeamStats).form = away.form := rfl
    have eform' : ({ away with avg_goals_scored := s' } : TeamStats).form = away.form := rfl
    simp only [enhancedRates, ebase1, esf, esf', ecd, ecd', eform, eform']
    refine mul_le_mul_of_nonneg_right (mul_le_mul_of_nonneg_right
      (applyEnhancedH2H_snd_mono _ h2h (mul_le_mul_of_nonneg_right
        (applyEnhancedForm_mono away.form (by exact_mod_cast hb)) (by norm_num)))
      (by exact_mod_cast (csDampFactor_pos home).le))
      (by exact_mod_cast (scoringFactor_pos away).le)

theorem enhancedRates_mono_in_avg_scored_witness :
    (1 : ℚ) ≤ 2 ∧ (0 : ℚ) ≤ (mkTeamStats 10 5 3 2 15 10 3 1 []).avg_goals_conceded ∧
      ((enhancedRates { mkTeamStats 10 5 3 2 15 10 3 1 [] with avg_goals_scored := (1 : ℚ) }
            (mkTeamStats 10 5 3 2 15 10 3 1 []) none).1 ≤
          (enhancedRates { mkTeamStats 10 5 3 2 15 10 3 1 [] with avg_goals_scored := (2 : ℚ) }
            (mkTeamStats 10 5 3 2 15 10 3 1 []) none).1 ∧
        (enhancedRates (mkTeamStats 10 5 3 2 15 10 3 1 [])
            { mkTeamStats 10 5 3 2 15 10 3 1 [] with avg_goals_scored := (1 : ℚ) } none).2 ≤
          (enhancedRates (mkTeamStats 10 5 3 2 15 10 3 1 [])
            { mkTeamStats 10 5 3 2 15 10 3 1 [] with avg_goals_scored := (2 : ℚ) } none).2) :=
  ⟨by norm_num, by norm_num [mkTeamStats],
    enhancedRates_mono_in_avg_scored (mkTeamStats 10 5 3 2 15 10 3 1 [])
      (mkTeamStats 10 5 3 2 15 10 3 1 []) none 1 2 (by norm_num)
      (by norm_num [mkTeamStats]) (by norm_num [mkTeamStats])⟩

/-- Embeds `scipy.stats.poisson.pmf` as called by `enhanced_predictor.py`
(lines 377-378, 474-475): the exact Poisson mass `exp(-mu) * mu^k / k!`. -/
noncomputable def poissonPmf (k : ℕ) (μ : ℝ) : ℝ :=
  Real.exp (-μ) * μ ^ k / (Nat.factorial k : ℝ)

/-- Embeds `enhanced_predictor.py`, `predict_match` lines 467-479: home-win bucket
of the 0..10 joint Poisson grid. -/
noncomputable def gridHomeWin (μh μa : ℝ) : ℝ :=
  ∑ h ∈ Finset.range 11, ∑ a ∈ Finset.range 11,
    if a < h then poissonPmf h μh * poissonPmf a μa else 0

/-- Embeds `enhanced_predictor.py`, `predict_match` lines 467-483: draw bucket. -/
noncomputable def gridDraw (μh μa : ℝ) : ℝ :=
  ∑ h ∈ Finset.range 11, ∑ a ∈ Finset.range 11,
    if h = a then poissonPmf h μh * poissonPmf a μa else 0

/-- Embeds `enhanced_predictor.py`, `predict_match` lines 467-481: away-win bucket. -/
noncomputable def gridAwayWin (μh μa : ℝ) : ℝ :=
  ∑ h ∈ Finset.range 11, ∑ a ∈ Finset.range 11,
    if h < a then poissonPmf h μh * poissonPmf a μa else 0

/-- Embeds `enhanced_predictor.py`, `predict_match` lines 444, 463-501: the
win/draw/loss triple placed into the `Prediction` is the raw bucket sums at
the `predict_score` rates — no normalization step follows the grid loop. -/
noncomputable def enhancedMatchProbs (home away : TeamStats) (h2h : Option H2HSummary) :
    ℝ × ℝ × ℝ :=
  let rates := enhancedRates home away h2h
  (gridHomeWin rates.1 rates.2, gridDraw rates.1 rates.2, gridAwayWin rates.1 rates.2)

theorem grid_buckets_total (n : ℕ) (p q : ℕ → ℝ) :
    ((∑ h ∈ Finset.range n, ∑ a ∈ Finset.range n, if a < h then p h * q a else 0) +
        (∑ h ∈ Finset.range n, ∑ a ∈ Finset.range n, if h = a then p h * q a else 0) +
        (∑ h ∈ Finset.range n, ∑ a ∈ Finset.range n, if h < a then p h * q a else 0)) =
      (∑ h ∈ Finset.range n, p h) * (∑ a ∈ Finset.range n, q a) := by
  rw [Finset.sum_mul_sum, ← Finset.sum_add_distrib, ← Finset.sum_add_distrib]
  refine Finset.sum_congr rfl fun h _ => ?_
  rw [← Finset.sum_add_distrib, ← Finset.sum_add_distrib]
  refine Finset.sum_congr rfl fun a _ => ?_
  rcases lt_trichotomy a h with hlt | heq | hgt
  · rw [if_pos hlt, if_neg (ne_of_gt hlt), if_neg (Nat.lt_asymm hlt)]
    ring
  · subst heq
    simp
  · rw [if_neg (Nat.lt_asymm hgt), if_neg (ne_of_lt hgt), if_pos hgt]
    ring

/-- Embeds `enhanced_predictor_fixed.py`, `predict_from_stats` lines 286-297: the
0..9 joint grid over `_poisson_pmf`, bucketed by outcome (the loops are
`range(0, 10)`). -/
noncomputable def fixedGridProbs (μh μa : ℚ) : ℝ × ℝ × ℝ :=
  (∑ h ∈ Finset.range 10, ∑ a ∈ Finset.range 10,
      if a < h then poissonPmfFixed h μh * poissonPmfFixed a μa else 0,
    ∑ h ∈ Finset.range 10, ∑ a ∈ Finset.range 10,
      if h = a then poissonPmfFixed h μh * poissonPmfFixed a μa else 0,
    ∑ h ∈ Finset.range 10, ∑ a ∈ Finset.range 10,
      if h < a then poissonPmfFixed h μh * poissonPmfFixed a μa else 0)

/-- Embeds `enhanced_predictor_fixed.py`, `predict_from_stats` lines 299-304: the
triple is divided by its own total when that total is positive. -/
noncomputable def normalizeTriple (t : ℝ × ℝ × ℝ) : ℝ × ℝ × ℝ :=
  let total := t.1 + t.2.1 + t.2.2
  if 0 < total then (t.1 / total, t.2.1 / total, t.2.2 / total) else t

/-- Embeds `enhanced_predictor_fixed.py`, `EnhancedMatchPredictor.predict_from_stats`
(lines 274-304), probability part: grid buckets at the
`calculate_expected_goals` rates, then normalization. -/
noncomputable def predictFromStatsProbs (home away : TeamStats) (h2h : H2HFixed) : ℝ × ℝ × ℝ :=
  let eg := calculateExpectedGoalsFixed home away h2h
  normalizeTriple (fixedGridProbs eg.1 eg.2.1)

theorem poissonPmfFixed_nonneg (k : ℕ) (μ : ℚ) (h : 0 ≤ μ) : 0 ≤ poissonPmfFixed k μ := by
  unfold poissonPmfFixed
  split_ifs
  · exact le_refl 0
  all_goals
    exact div_nonneg (mul_nonneg (Real.exp_pos _).le (pow_nonneg (by exact_mod_cast h) k))
      (Nat.cast_nonneg _)

theorem poissonPmfFixed_zero_pos (μ : ℚ) (h : 0 < μ) : 0 < poissonPmfFixed 0 μ := by
  unfold poissonPmfFixed
  rw [if_neg (ne_of_gt h)]
  norm_num [Nat.factorial]
  exact Real.exp_pos _

/-- C1 (amended, normalized path): `predict_from_stats` does normalize its
grid triple, so whenever both expected-goal rates are positive the returned
win/draw/loss probabilities sum to exactly 1. (`predict_match` in
`enhanced_predictor.py` does not normalize; see the counterexample.) -/
theorem predictFromStats_probs_sum_one (home away : TeamStats) (h2h : H2HFixed)
    (hh : 0 < (calculateExpectedGoalsFixed home away h2h).1)
    (ha : 0 < (calculateExpectedGoalsFixed home away h2h).2.1) :
    (predictFromStatsProbs home away h2h).1 + (predictFromStatsProbs home away h2h).2.1 +
      (predictFromStatsProbs home away h2h).2.2 = 1 := by
  set μh := (calculateExpectedGoalsFixed home away h2h).1 with hμh
  set μa := (calculateExpectedGoalsFixed home away h2h).2.1 with hμa
  have hw : 0 < ∑ k ∈ Finset.range 10, poissonPmfFixed k μh :=
    Finset.sum_pos' (fun i _ => poissonPmfFixed_nonneg i μh hh.le)
      ⟨0, Finset.mem_range.mpr (by norm_num), poissonPmfFixed_zero_pos μh hh⟩
  have hq : 0 < ∑ k ∈ Finset.range 10, poissonPmfFixed k μa :=
    Finset.sum_pos' (fun i _ => poissonPmfFixed_nonneg i μa ha.le)
      ⟨0, Finset.mem_range.mpr (by norm_num), poissonPmfFixed_zero_pos μa ha⟩
  have htot : (fixedGridProbs μh μa).1 + (fixedGridProbs μh μa).2.1 +
      (fixedGridProbs μh μa).2.2 =
        (∑ k ∈ Finset.range 10, poissonPmfFixed k μh) *
          (∑ k ∈ Finset.range 10, poissonPmfFixed k μa) :=
    grid_buckets_total 10 (fun k => poissonPmfFixed k μh) (fun k => poissonPmfFixed k μa)
  have hpos : 0 < (fixedGridProbs μh μa).1 + (fixedGridProbs μh μa).2.1 +
      (fixedGridProbs μh μa).2.2 := by
    rw [htot]
    exact mul_pos hw hq
  have heq : predictFromStatsProbs home away h2h = normalizeTriple (fixedGridProbs μh μa) := rfl
  rw [heq]
  simp only [normalizeTriple]
  rw [if_pos hpos, div_add_div_same, div_add_div_same, div_self (ne_of_gt hpos)]

theorem predictFromStats_probs_sum_one_witness :
    0 < (calculateExpectedGoalsFixed (mkTeamStats 1 1 0 0 1 1 0 0 [])
          (mkTeamStats 1 1 0 0 1 1 0 0 []) (H2HFixed.mk 0 0 0 0 0 0)).1 ∧
      0 < (calculateExpectedGoalsFixed (mkTeamStats 1 1 0 0 1 1 0 0 [])
          (mkTeamStats 1 1 0 0 1 1 0 0 []) (H2HFixed.mk 0 0 0 0 0 0)).2.1 ∧
      (predictFromStatsProbs (mkTeamStats 1 1 0 0 1 1 0 0 [])
            (mkTeamStats 1 1 0 0 1 1 0 0 []) (H2HFixed.mk 0 0 0 0 0 0)).1 +
          (predictFromStatsProbs (mkTeamStats 1 1 0 0 1 1 0 0 [])
            (mkTeamStats 1 1 0 0 1 1 0 0 []) (H2HFixed.mk 0 0 0 0 0 0)).2.1 +
          (predictFromStatsProbs (mkTeamStats 1 1 0 0 1 1 0 0 [])
            (mkTeamStats 1 1 0 0 1 1 0 0 []) (H2HFixed.mk 0 0 0 0 0 0)).2.2 = 1 :=
  ⟨by norm_num [calculateExpectedGoalsFixed, fixedBaseRates, fixedH2HBlend, mkTeamStats],
    by norm_num [calculateExpectedGoalsFixed, fixedBaseRates, fixedH2HBlend, mkTeamStats],
    predictFromStats_probs_sum_one _ _ _
      (by norm_num [calculateExpectedGoalsFixed, fixedBaseRates, fixedH2HBlend, mkTeamStats])
      (by norm_num [calculateExpectedGoalsFixed, fixedBaseRates, fixedH2HBlend, mkTeamStats])⟩

/-- Concrete home snapshot for the normalization counterexample: 2 matches,
5 scored, 2 conceded (averages 5/2 and 1). -/
def c1Home : TeamStats := calculateAverages (mkTeamStats 2 1 0 1 5 2 0 0 [])

/-- Concrete away snapshot for the normalization counterexample: 17 matches,
24 scored, 17 conceded (averages 24/17 and 1). -/
def c1Away : TeamStats := calculateAverages (mkTeamStats 17 5 5 7 24 17 0 0 [])

theorem c1_rates : enhancedRates c1Home c1Away none = ((2 : ℝ), (1 : ℝ)) := by
  norm_num [enhancedRates, enhancedBaseRates, applyEnhancedForm, applyEnhancedH2H,
    csDampFactor, scoringFactor, calculateAverages, mkTeamStats, c1Home, c1Away,
    Prod.mk.injEq]

theorem sum_poissonPmf_range (n : ℕ) (μ : ℝ) :
    ∑ k ∈ Finset.range n, poissonPmf k μ =
      Real.exp (-μ) * ∑ k ∈ Finset.range n, μ ^ k / (Nat.factorial k : ℝ) := by
  rw [Finset.mul_sum]
  exact Finset.sum_congr rfl fun k _ => by rw [poissonPmf, mul_div_assoc]

/-- C1 counterexample: `enhanced_predictor.py` `predict_match` performs no
normalization after grid truncation; at snapshots producing the
expected-goal pair `(2, 1)` its win+draw+loss mass is the truncated grid
total, which is strictly below `1 - 1e-6`. -/
theorem enhancedMatchProbs_sum_not_within_tolerance :
    (enhancedMatchProbs c1Home c1Away none).1 + (enhancedMatchProbs c1Home c1Away none).2.1 +
      (enhancedMatchProbs c1Home c1Away none).2.2 < 1 - 1 / 1000000 := by
  have heq : enhancedMatchProbs c1Home c1Away none =
      (gridHomeWin 2 1, gridDraw 2 1, gridAwayWin 2 1) := by
    unfold enhancedMatchProbs
    rw [c1_rates]
  rw [heq]
  dsimp only
  have htot : gridHomeWin 2 1 + gridDraw 2 1 + gridAwayWin 2 1 =
      (∑ k ∈ Finset.range 11, poissonPmf k 2) * (∑ k ∈ Finset.range 11, poissonPmf k 1) :=
    grid_buckets_total 11 (fun k => poissonPmf k 2) (fun k => poissonPmf k 1)
  rw [htot, sum_poissonPmf_range, sum_poissonPmf_range]
  have hA : ∑ k ∈ Finset.range 11, (2 : ℝ) ^ k / (Nat.factorial k : ℝ)
      = 26813184 / 3628800 := by
    norm_num [Finset.sum_range_succ, Nat.factorial]
  have hB : ∑ k ∈ Finset.range 11, (1 : ℝ) ^ k / (Nat.factorial k : ℝ)
      = 9864101 / 3628800 := by
    norm_num [Finset.sum_range_succ, Nat.factorial]
  rw [hA, hB]
  have hcomb : Real.exp (-(2 : ℝ)) * (26813184 / 3628800 : ℝ) *
      (Real.exp (-(1 : ℝ)) * (9864101 / 3628800 : ℝ)) =
        Real.exp (-(3 : ℝ)) * (26813184 / 3628800 * (9864101 / 3628800) : ℝ) := by
    rw [show (-(3 : ℝ)) = -2 + -1 by norm_num, Real.exp_add]
    ring
  rw [hcomb]
  have hcube : (2.7182818283 : ℝ) ^ 3 < Real.exp 3 := by
    have h1 : (2.7182818283 : ℝ) < Real.exp 1 := Real.exp_one_gt_d9
    have h3 : (Real.exp 1) ^ 3 = Real.exp 3 := by
      rw [← Real.exp_nat_mul]
      norm_num
    have h2 : (2.7182818283 : ℝ) ^ 3 < (Real.exp 1) ^ 3 := by
      gcongr
    linarith
  have hinv : (Real.exp 3)⁻¹ < ((2.7182818283 : ℝ) ^ 3)⁻¹ :=
    inv_lt_inv_of_lt (by positivity) hcube
  calc Real.exp (-(3 : ℝ)) * (26813184 / 3628800 * (9864101 / 3628800) : ℝ)
      = (Real.exp 3)⁻¹ * (26813184 / 3628800 * (9864101 / 3628800) : ℝ) := by
        rw [Real.exp_neg]
    _ < ((2.7182818283 : ℝ) ^ 3)⁻¹ * (26813184 / 3628800 * (9864101 / 3628800) : ℝ) :=
        mul_lt_mul_of_pos_right hinv (by norm_num)
    _ < 1 - 1 / 1000000 := by norm_num

theorem poissonPmf_offdiag_le (a h : ℕ) (μh μa : ℝ) (hah : a < h) (h0 : 0 ≤ μa)
    (hle : μa ≤ μh) :
    poissonPmf a μh * poissonPmf h μa ≤ poissonPmf h μh * poissonPmf a μa := by
  have hμh0 : 0 ≤ μh := le_trans h0 hle
  obtain ⟨d, rfl⟩ : ∃ d, h = a + d := ⟨h - a, by omega⟩
  have key : μh ^ a * μa ^ (a + d) ≤ μh ^ (a + d) * μa ^ a := by
    rw [pow_add, pow_add]
    have hpow : μa ^ d ≤ μh ^ d := pow_le_pow_left h0 hle d
    calc μh ^ a * (μa ^ a * μa ^ d) = μh ^ a * μa ^ a * μa ^ d := by ring
      _ ≤ μh ^ a * μa ^ a * μh ^ d :=
          mul_le_mul_of_nonneg_left hpow (mul_nonneg (pow_nonneg hμh0 a) (pow_nonneg h0 a))
      _ = μh ^ a * μh ^ d * μa ^ a := by ring
  have hconst : 0 ≤ Real.exp (-μh) * Real.exp (-μa) /
      ((Nat.factorial a : ℝ) * (Nat.factorial (a + d) : ℝ)) := by positivity
  have expand1 : poissonPmf a μh * poissonPmf (a + d) μa =
      Real.exp (-μh) * Real.exp (-μa) /
        ((Nat.factorial a : ℝ) * (Nat.factorial (a + d) : ℝ)) * (μh ^ a * μa ^ (a + d)) := by
    unfold poissonPmf
    ring
  have expand2 : poissonPmf (a + d) μh * poissonPmf a μa =
      Real.exp (-μh) * Real.exp (-μa) /
        ((Nat.factorial a : ℝ) * (Nat.factorial (a + d) : ℝ)) * (μh ^ (a + d) * μa ^ a) := by
    unfold poissonPmf
    ring
  rw [expand1, expand2]
  exact mul_le_mul_of_nonneg_left key hconst

theorem poissonPmf_one_zero_strict (μh μa : ℝ) (h0 : 0 < μa) (hlt : μa < μh) :
    poissonPmf 0 μh * poissonPmf 1 μa < poissonPmf 1 μh * poissonPmf 0 μa := by
  unfold poissonPmf
  norm_num [Nat.factorial]
  nlinarith [mul_pos (mul_pos (sub_pos.mpr hlt) (Real.exp_pos (-μh))) (Real.exp_pos (-μa))]

theorem gridAwayWin_swap (μh μa : ℝ) :
    gridAwayWin μh μa = ∑ h ∈ Finset.range 11, ∑ a ∈ Finset.range 11,
      if a < h then poissonPmf a μh * poissonPmf h μa else 0 := by
  unfold gridAwayWin
  rw [Finset.sum_comm]

theorem gridAwayWin_lt_gridHomeWin (μh μa : ℝ) (h0 : 0 < μa) (hlt : μa < μh) :
    gridAwayWin μh μa < gridHomeWin μh μa := by
  rw [gridAwayWin_swap]
  unfold gridHomeWin
  refine Finset.sum_lt_sum (fun h _ => Finset.sum_le_sum fun a _ => ?_)
    ⟨1, Finset.mem_range.mpr (by norm_num), ?_⟩
  · by_cases hc : a < h
    · rw [if_pos hc, if_pos hc]
      exact poissonPmf_offdiag_le a h μh μa hc h0.le hlt.le
    · rw [if_neg hc, if_neg hc]
  · refine Finset.sum_lt_sum (fun a _ => ?_) ⟨0, Finset.mem_range.mpr (by norm_num), ?_⟩
    · by_cases hc : a < 1
      · rw [if_pos hc, if_pos hc]
        have ha0 : a = 0 := by omega
        subst ha0
        exact poissonPmf_offdiag_le 0 1 μh μa (by norm_num) h0.le hlt.le
      · rw [if_neg hc, if_neg hc]
    · rw [if_pos (by norm_num : (0 : ℕ) < 1), if_pos (by norm_num : (0 : ℕ) < 1)]
      exact poissonPmf_one_zero_strict μh μa h0 hlt

/-- C4 (amended): for identical snapshots with positive scoring and conceding
averages, a W/D/L form and no head-to-head record, the `predict_match` grid
gives the home side a strictly larger win probability than the away side —
the `1.2` home multiplier versus the `0.85` away multiplier (net of the
asymmetric league constants) makes the home rate strictly larger. -/
theorem identical_stats_home_edge (s : TeamStats) (hs : 0 < s.avg_goals_scored)
    (hc : 0 < s.avg_goals_conceded) (hform : ∀ ch ∈ s.form, ValidResult ch) :
    (enhancedMatchProbs s s none).2.2 < (enhancedMatchProbs s s none).1 := by
  set F := (if s.form ≠ [] ∧ 5 ≤ s.form.length
      then calculateFormFactor (s.form.drop (s.form.length - 5)) else (1 : ℝ)) with hF
  have hFpos : 0 < F := by
    rw [hF]
    split_ifs with hcnd
    · exact calculateFormFactor_pos _ fun ch hch => hform ch (List.mem_of_mem_drop hch)
    · norm_num
  have happ : ∀ r : ℝ, applyEnhancedForm r s.form = r * F := by
    intro r
    rw [hF]
    unfold applyEnhancedForm
    split_ifs with hcnd
    · rfl
    · rw [mul_one]
  have e1 : (enhancedRates s s none).1 =
      ((s.avg_goals_scored / max 0.5 1.5 * (s.avg_goals_conceded / max 0.5 1.5) * 1.5 : ℚ) : ℝ)
        * F * 1.2 * ((csDampFactor s : ℚ) : ℝ) * ((scoringFactor s : ℚ) : ℝ) := by
    simp only [enhancedRates, enhancedBaseRates, applyEnhancedH2H, happ]
  have e2 : (enhancedRates s s none).2 =
      ((s.avg_goals_scored / max 0.5 1.2 * (s.avg_goals_conceded / max 0.5 1.2) * 1.2 : ℚ) : ℝ)
        * F * 0.85 * ((csDampFactor s : ℚ) : ℝ) * ((scoringFactor s : ℚ) : ℝ) := by
    simp only [enhancedRates, enhancedBaseRates, applyEnhancedH2H, happ]
  have hb1 : (s.avg_goals_scored / max (0.5 : ℚ) 1.5 * (s.avg_goals_conceded / max 0.5 1.5) * 1.5)
      = s.avg_goals_scored * s.avg_goals_conceded * (2 / 3) := by
    rw [show max (0.5 : ℚ) 1.5 = 3 / 2 by norm_num]
    ring
  have hb2 : (s.avg_goals_scored / max (0.5 : ℚ) 1.2 * (s.avg_goals_conceded / max 0.5 1.2) * 1.2)
      = s.avg_goals_scored * s.avg_goals_conceded * (5 / 6) := by
    rw [show max (0.5 : ℚ) 1.2 = 6 / 5 by norm_num]
    ring
  have hX : (0 : ℝ) < ((s.avg_goals_scored : ℝ) * (s.avg_goals_conceded : ℝ)) := by
    have := mul_pos hs hc
    have h' : (0 : ℝ) < ((s.avg_goals_scored * s.avg_goals_conceded : ℚ) : ℝ) := by
      exact_mod_cast this
    push_cast at h'
    exact h'
  have hcd : (0 : ℝ) < ((csDampFactor s : ℚ) : ℝ) := by exact_mod_cast csDampFactor_pos s
  have hsf : (0 : ℝ) < ((scoringFactor s : ℚ) : ℝ) := by exact_mod_cast scoringFactor_pos s
  have hK : (0 : ℝ) < (s.avg_goals_scored : ℝ) * (s.avg_goals_conceded : ℝ) * F *
      ((csDampFactor s : ℚ) : ℝ) * ((scoringFactor s : ℚ) : ℝ) :=
    mul_pos (mul_pos (mul_pos hX hFpos) hcd) hsf
  simp only [enhancedMatchProbs]
  apply gridAwayWin_lt_gridHomeWin
  · rw [e2, hb2]
    push_cast
    nlinarith [hK]
  · rw [e1, hb1, e2, hb2]
    push_cast
    nlinarith [hK]

theorem identical_stats_home_edge_witness :
    0 < (calculateAverages (mkTeamStats 10 5 3 2 15 10 3 1 [])).avg_goals_scored ∧
      0 < (calculateAverages (mkTeamStats 10 5 3 2 15 10 3 1 [])).avg_goals_conceded ∧
      (∀ ch ∈ (calculateAverages (mkTeamStats 10 5 3 2 15 10 3 1 [])).form, ValidResult ch) ∧
      (enhancedMatchProbs (calculateAverages (mkTeamStats 10 5 3 2 15 10 3 1 []))
            (calculateAverages (mkTeamStats 10 5 3 2 15 10 3 1 [])) none).2.2 <
        (enhancedMatchProbs (calculateAverages (mkTeamStats 10 5 3 2 15 10 3 1 []))
          (calculateAverages (mkTeamStats 10 5 3 2 15 10 3 1 [])) none).1 :=
  ⟨by norm_num [calculateAverages, mkTeamStats],
    by norm_num [calculateAverages, mkTeamStats],
    by simp [calculateAverages, mkTeamStats],
    identical_stats_home_edge _ (by norm_num [calculateAverages, mkTeamStats])
      (by norm_num [calculateAverages, mkTeamStats])
      (by simp [calculateAverages, mkTeamStats])⟩

/-- The all-zero snapshot (fresh dataclass with every counter 0 and an empty
form). -/
def c4Zero : TeamStats := mkTeamStats 0 0 0 0 0 0 0 0 []

theorem c4Zero_rates : enhancedRates c4Zero c4Zero none = ((0 : ℝ), (0 : ℝ)) := by
  norm_num [enhancedRates, enhancedBaseRates, applyEnhancedForm, applyEnhancedH2H,
    csDampFactor, scoringFactor, mkTeamStats, c4Zero, Prod.mk.injEq]

theorem gridHomeWin_zero : gridHomeWin 0 0 = 0 := by
  unfold gridHomeWin
  refine Finset.sum_eq_zero fun h _ => Finset.sum_eq_zero fun a _ => ?_
  split_ifs with hcond
  · have hne : h ≠ 0 := by omega
    simp [poissonPmf, zero_pow hne]
  · rfl

theorem gridAwayWin_zero : gridAwayWin 0 0 = 0 := by
  unfold gridAwayWin
  refine Finset.sum_eq_zero fun h _ => Finset.sum_eq_zero fun a _ => ?_
  split_ifs with hcond
  · have hne : a ≠ 0 := by omega
    simp [poissonPmf, zero_pow hne]
  · rfl

/-- C4 counterexample: two snapshots with identical (all-zero) statistics
and no head-to-head record give expected-goal rates `(0, 0)`; the whole grid
mass then sits on the 0-0 draw cell, so the home win probability equals the
away win probability (both 0) instead of strictly exceeding it. -/
theorem identical_zero_stats_no_home_edge :
    ¬ (enhancedMatchProbs c4Zero c4Zero none).2.2 < (enhancedMatchProbs c4Zero c4Zero none).1 := by
  have h : enhancedMatchProbs c4Zero c4Zero none =
      (gridHomeWin 0 0, gridDraw 0 0, gridAwayWin 0 0) := by
    unfold enhancedMatchProbs
    rw [c4Zero_rates]
  rw [h]
  dsimp only
  rw [gridHomeWin_zero, gridAwayWin_zero]
  exact lt_irrefl 0
